import Mathlib

/-!
Verification of the audio-recorder worker/controller in this repository.

The embedding follows `src/thread.rs` (the audio worker: `spawn_audio_thread`'s
command loop and the input-stream data callback) and `src/recorder.rs` (the
session controller built on a command channel and a response channel).

External collaborators are modelled abstractly but faithfully to how the code
uses them:
  * the cpal host is a `Host` value listing input devices, each with a possibly
    failing name, default config, stream construction and playback;
  * the hound `WavWriter` is a `WavWriter` record accumulating written samples;
    dropping a writer flushes it, leaving a finalized container at its path
    (hound finalizes on drop, which is what lets `stop_recording` read the file);
  * the filesystem is an association list from paths to file data;
  * `f32` samples are embedded as rationals, and Rust's saturating
    float-to-integer `as` casts are modelled exactly on rationals.
-/

deriving instance DecidableEq for Except

namespace WhisperingRecorder

/-- hound sample format, as used by `thread.rs`. -/
inductive SampleFormat
  | int
  | float
deriving DecidableEq

/-- hound `WavSpec`, as constructed in the `InitRecordingSession` arm. -/
structure WavSpec where
  channels : Nat
  sample_rate : Nat
  bits_per_sample : Nat
  sample_format : SampleFormat
deriving DecidableEq

/-- One sample as written into a WAV writer: the callback writes `f32`
(floating-point path), `i16` (16-bit path) or `i32` (24-bit path). -/
inductive WrittenSample
  | f32 (v : ℚ)
  | i16 (v : ℤ)
  | i32 (v : ℤ)
deriving DecidableEq

/-- A hound `WavWriter<BufWriter<File>>`: bound to a path and a spec, holding
the samples written so far. -/
structure WavWriter where
  path : String
  spec : WavSpec
  samples : List WrittenSample
deriving DecidableEq

/-- A device's default input config (channel count and sample rate), the part
of `cpal::SupportedStreamConfig` the code reads. -/
structure DeviceConfig where
  channels : Nat
  sample_rate : Nat
deriving DecidableEq

/-- A cpal input device as used by `thread.rs`: its name lookup, default input
config lookup, stream construction and playback may each fail with a message. -/
structure Device where
  name : Except String String
  default_input_config : Except String DeviceConfig
  build_input_stream_ok : Except String Unit
  play_ok : Except String Unit
deriving DecidableEq

/-- The cpal host together with the fallible parts of the environment:
`input_devices` may fail, and `hound::WavWriter::create` fails exactly on the
paths listed in `wav_create_fails` (modelling unopenable paths). -/
structure Host where
  input_devices : Except String (List Device)
  wav_create_fails : List String
deriving DecidableEq

/-- Contents of one on-disk file: either a container still being written
(created by `WavWriter::create`) or a finalized container. -/
inductive FileData
  | inProgress (spec : WavSpec)
  | finalized (spec : WavSpec) (samples : List WrittenSample)
deriving DecidableEq

/-- The filesystem, as an association list from paths to file data. -/
abbrev FS := List (String × FileData)

/-- Look up a file. -/
def fsGet (fs : FS) (p : String) : Option FileData :=
  (fs.find? (fun e => e.1 == p)).map (fun e => e.2)

/-- Whether a file exists. -/
def fsHas (fs : FS) (p : String) : Bool :=
  (fsGet fs p).isSome

/-- Create or truncate a file. -/
def fsSet (fs : FS) (p : String) (d : FileData) : FS :=
  (p, d) :: fs.filter (fun e => e.1 != p)

/-- Remove a file (`std::fs::remove_file`); the caller checks existence. -/
def fsRemove (fs : FS) (p : String) : FS :=
  fs.filter (fun e => e.1 != p)

/-- Overwrite a file's data only if the path still exists (a buffered writer
flushing to an already-unlinked file does not re-create the path). -/
def fsUpdate (fs : FS) (p : String) (d : FileData) : FS :=
  if fsHas fs p then fsSet fs p d else fs

/-- Dropping a hound writer flushes and finalizes the container at its path
(hound's `Drop` implementation finalizes best-effort). -/
def dropWriter (w : WavWriter) (fs : FS) : FS :=
  fsUpdate fs w.path (.finalized w.spec w.samples)

/-- Drop whatever writer a slot holds (used when an assignment into the shared
slot drops the previous occupant). -/
def dropSlot (slot : Option WavWriter) (fs : FS) : FS :=
  match slot with
  | none => fs
  | some w => dropWriter w fs

/-- The OS error message used when `remove_file` fails on a missing path. -/
def osNotFound : String := "No such file or directory (os error 2)"

/-- `UserRecordingSessionConfig` from `thread.rs`. -/
structure UserRecordingSessionConfig where
  device_name : String
  bits_per_sample : Nat
deriving DecidableEq

/-- The stream handle owned by a session; it carries the spec captured by the
data-callback closure built in the `InitRecordingSession` arm. -/
structure AudioStream where
  device_name : String
  spec : WavSpec
deriving DecidableEq

/-- `RecordingSessionSettings` from `thread.rs`. -/
structure RecordingSessionSettings where
  device_name : String
  bits_per_sample : Nat
deriving DecidableEq

/-- `RecordingSession` from `thread.rs`. -/
structure RecordingSession where
  settings : RecordingSessionSettings
  stream : AudioStream
  writer : Option WavWriter
  spec : WavSpec
deriving DecidableEq

/-- `AudioCommand` from `thread.rs`. -/
inductive AudioCommand
  | closeThread
  | enumerateRecordingDevices
  | initRecordingSession (config : UserRecordingSessionConfig)
  | closeRecordingSession
  | startRecording (filename : String)
  | stopRecording
  | cancelRecording (filename : String)
deriving DecidableEq

/-- `AudioResponse` from `thread.rs`. -/
inductive AudioResponse
  | recordingDeviceList (devices : List String)
  | error (msg : String)
  | success (msg : String)
deriving DecidableEq

/-- The audio worker thread's mutable state: its local
`current_recording_session`, the shared writer slot
(`Arc<Mutex<Option<WavWriter>>>`), and the filesystem it acts on. -/
structure WorkerState where
  current_recording_session : Option RecordingSession
  writer : Option WavWriter
  fs : FS
deriving DecidableEq

/-- Truncation of a rational toward zero, the rounding of Rust's
float-to-integer `as` casts. -/
def ratTrunc (q : ℚ) : ℤ :=
  q.num.tdiv q.den

/-- Rust `as` cast from a float to an integer type with range `[lo, hi]`:
truncate toward zero, then saturate. -/
def rustCast (lo hi : ℤ) (q : ℚ) : ℤ :=
  max lo (min hi (ratTrunc q))

/-- `(sample * 32767.0) as i16`, the 16-bit conversion in the data callback. -/
def f32_to_i16 (sample : ℚ) : ℤ :=
  rustCast (-32768) 32767 (sample * 32767)

/-- `(sample * 8388607.0) as i32`, the 24-bit conversion in the data callback. -/
def f32_to_i24 (sample : ℚ) : ℤ :=
  rustCast (-2147483648) 2147483647 (sample * 8388607)

/-- The per-sample body of the data callback: the format-appropriate
conversion, `none` marking the `unreachable!` arm (Int format with a bit depth
other than 16 or 24). -/
def convertSample (spec : WavSpec) (sample : ℚ) : Option WrittenSample :=
  match spec.sample_format with
  | .float => some (.f32 sample)
  | .int =>
    if spec.bits_per_sample = 16 then some (.i16 (f32_to_i16 sample))
    else if spec.bits_per_sample = 24 then some (.i32 (f32_to_i24 sample))
    else none

/-- The callback's `for &sample in data` loop: convert every sample, `none` if
any sample hits the `unreachable!` arm. -/
def writeAllSamples (spec : WavSpec) : List ℚ → Option (List WrittenSample)
  | [] => some []
  | s :: rest =>
    match convertSample spec s, writeAllSamples spec rest with
    | some w, some ws => some (w :: ws)
    | _, _ => none

/-- The input-stream data callback from the `InitRecordingSession` arm: lock
the shared slot; if it holds a writer, append every converted sample of the
buffer; if it is empty, do nothing. The outer `none` marks a panic via
`unreachable!`. -/
def audioCallback (spec : WavSpec) (slot : Option WavWriter) (data : List ℚ) :
    Option (Option WavWriter) :=
  match slot with
  | none => some none
  | some w =>
    (writeAllSamples spec data).map
      (fun ws => some { w with samples := w.samples ++ ws })

/-- The `match recording_session_config.bits_per_sample` in the
`InitRecordingSession` arm: 16 and 24 map to Int, 32 to Float, anything else
is rejected. -/
def sampleFormatFor (bits : Nat) : Option SampleFormat :=
  if bits = 16 then some .int
  else if bits = 24 then some .int
  else if bits = 32 then some .float
  else none

/-- The device lookup in the `InitRecordingSession` arm:
`devices.find(|d| matches!(d.name(), Ok(name) if name == wanted))`. -/
def findDevice (devices : List Device) (wanted : String) : Option Device :=
  devices.find? (fun d =>
    match d.name with
    | .ok n => n == wanted
    | .error _ => false)

/-- One iteration of the `while let Ok(cmd) = rx.recv()` loop in
`spawn_audio_thread`: the next worker state, the responses sent on the
response channel while handling this command, and whether the loop continues
(`false` only for `CloseThread`). -/
def processCommand (host : Host) (st : WorkerState) :
    AudioCommand → WorkerState × List AudioResponse × Bool
  | .enumerateRecordingDevices =>
    match host.input_devices with
    | .ok devices =>
      (st, [.recordingDeviceList (devices.filterMap (fun d =>
        match d.name with
        | .ok n => some n
        | .error _ => none))], true)
    | .error e =>
      (st, [.error e, .recordingDeviceList []], true)
  | .initRecordingSession cfg =>
    if st.current_recording_session.isSome then
      (st, [.error "Stream already initialized"], true)
    else
      match host.input_devices with
      | .error e => (st, [.error e], true)
      | .ok devices =>
        match findDevice devices cfg.device_name with
        | none => (st, [.error "Device not found"], true)
        | some device =>
          match device.default_input_config with
          | .error e => (st, [.error e], true)
          | .ok config =>
            match sampleFormatFor cfg.bits_per_sample with
            | none =>
              (st, [.error ("Unsupported bits per sample: " ++
                toString cfg.bits_per_sample)], true)
            | some fmt =>
              let spec : WavSpec :=
                { channels := config.channels
                  sample_rate := config.sample_rate
                  bits_per_sample := cfg.bits_per_sample
                  sample_format := fmt }
              match device.build_input_stream_ok with
              | .error e => (st, [.error ("Failed to build stream: " ++ e)], true)
              | .ok _ =>
                match device.play_ok with
                | .error e => (st, [.error ("Failed to start stream: " ++ e)], true)
                | .ok _ =>
                  let session : RecordingSession :=
                    { settings :=
                        { device_name := cfg.device_name
                          bits_per_sample := cfg.bits_per_sample }
                      stream := { device_name := cfg.device_name, spec := spec }
                      writer := none
                      spec := spec }
                  ({ st with current_recording_session := some session },
                   [.success "Recording session initialized"], true)
  | .startRecording filename =>
    match st.current_recording_session with
    | none => (st, [.error "Recording session not initialized"], true)
    | some session =>
      if filename ∈ host.wav_create_fails then
        (st, [.error ("Failed to create WAV writer: " ++ filename)], true)
      else
        ({ st with
            writer := some { path := filename, spec := session.spec, samples := [] },
            fs := dropSlot st.writer
              (fsSet st.fs filename (.inProgress session.spec)) },
         [.success "Recording started"], true)
  | .stopRecording =>
    match st.writer with
    | none => (st, [.error "No active recording to stop"], true)
    | some w =>
      ({ st with writer := none, fs := dropWriter w st.fs },
       [.success "Recording stopped"], true)
  | .cancelRecording filename =>
    match st.writer with
    | none => (st, [.error "No active recording to cancel"], true)
    | some w =>
      let fs1 := dropWriter w st.fs
      if fsHas fs1 filename then
        ({ st with writer := none, fs := fsRemove fs1 filename },
         [.success "Recording cancelled and file deleted"], true)
      else
        ({ st with writer := none, fs := fs1 },
         [.error ("Failed to delete partial recording: " ++ osNotFound)], true)
  | .closeRecordingSession =>
    match st.current_recording_session with
    | some _ =>
      ({ st with current_recording_session := none },
       [.success "Recording session closed successfully"], true)
    | none =>
      (st, [.error "No active recording session to close"], true)
  | .closeThread =>
    (st, [.success "Audio thread exiting..."], false)

/-- `RecorderError` from `recorder.rs` (io errors carry their message). -/
inductive RecorderError
  | threadNotInitialized
  | sendError (msg : String)
  | receiveError (msg : String)
  | audioError (msg : String)
  | ioError (msg : String)
  | noActiveRecording
deriving DecidableEq

/-- The session controller's state: the worker it talks to, the
`CURRENT_RECORDING` static, and the responses queued on the response channel
but not yet received. -/
structure ControllerState where
  worker : WorkerState
  current_recording : Option String
  pending : List AudioResponse
deriving DecidableEq

/-- `tx.send(cmd)` followed by the worker processing it: the worker state
advances and the responses it emits are queued on the response channel. -/
def sendCommand (host : Host) (st : ControllerState) (cmd : AudioCommand) :
    ControllerState :=
  let r := processCommand host st.worker cmd
  { st with worker := r.1, pending := st.pending ++ r.2.1 }

/-- `rx.recv()`: pop the oldest queued response, if any. -/
def recvResponse (st : ControllerState) : Option AudioResponse × ControllerState :=
  match st.pending with
  | [] => (none, st)
  | r :: rest => (some r, { st with pending := rest })

/-- `enumerate_recording_devices` from `recorder.rs` (device ids and labels
are both the device name). -/
def enumerate_recording_devices (host : Host) (st : ControllerState) :
    Except RecorderError (List String) × ControllerState :=
  let st1 := sendCommand host st .enumerateRecordingDevices
  match recvResponse st1 with
  | (some (.recordingDeviceList devices), st2) => (.ok devices, st2)
  | (some (.error e), st2) => (.error (.audioError e), st2)
  | (some _, st2) => (.error (.audioError "Unexpected response"), st2)
  | (none, st2) => (.error (.receiveError "channel closed"), st2)

/-- `init_recording_session` from `recorder.rs`: forwards the settings to the
worker unchanged and waits for one response. -/
def init_recording_session (host : Host) (settings : UserRecordingSessionConfig)
    (st : ControllerState) : Except RecorderError Unit × ControllerState :=
  let st1 := sendCommand host st (.initRecordingSession settings)
  match recvResponse st1 with
  | (some (.success _), st2) => (.ok (), st2)
  | (some (.error e), st2) => (.error (.audioError e), st2)
  | (some _, st2) => (.error (.audioError "Unexpected response"), st2)
  | (none, st2) => (.error (.receiveError "channel closed"), st2)

/-- `close_recording_session` from `recorder.rs`: on success clears
`CURRENT_RECORDING`. -/
def close_recording_session (host : Host) (st : ControllerState) :
    Except RecorderError Unit × ControllerState :=
  let st1 := sendCommand host st .closeRecordingSession
  match recvResponse st1 with
  | (some (.success _), st2) => (.ok (), { st2 with current_recording := none })
  | (some (.error e), st2) => (.error (.audioError e), st2)
  | (some _, st2) => (.error (.audioError "Unexpected response"), st2)
  | (none, st2) => (.error (.receiveError "channel closed"), st2)

/-- `start_recording` from `recorder.rs`: derives `"{id}.wav"`, sends
`StartRecording`, and on success records the filename in
`CURRENT_RECORDING`. -/
def start_recording (host : Host) (recording_id : String) (st : ControllerState) :
    Except RecorderError Unit × ControllerState :=
  let filename := recording_id ++ ".wav"
  let st1 := sendCommand host st (.startRecording filename)
  match recvResponse st1 with
  | (some (.success _), st2) => (.ok (), { st2 with current_recording := some filename })
  | (some (.error e), st2) => (.error (.audioError e), st2)
  | (some _, st2) => (.error (.audioError "Unexpected response"), st2)
  | (none, st2) => (.error (.receiveError "channel closed"), st2)

/-- `stop_recording` from `recorder.rs`: fails locally with
`NoActiveRecording` when `CURRENT_RECORDING` is empty; otherwise sends
`StopRecording` and, on worker success, reads the finalized file into memory,
removes the on-disk copy, clears `CURRENT_RECORDING` and returns the bytes. -/
def stop_recording (host : Host) (st : ControllerState) :
    Except RecorderError FileData × ControllerState :=
  match st.current_recording with
  | none => (.error .noActiveRecording, st)
  | some filename =>
    let st1 := sendCommand host st .stopRecording
    match recvResponse st1 with
    | (some (.success _), st2) =>
      match fsGet st2.worker.fs filename with
      | none => (.error (.ioError osNotFound), st2)
      | some contents =>
        (.ok contents,
         { st2 with
            worker := { st2.worker with fs := fsRemove st2.worker.fs filename },
            current_recording := none })
    | (some (.error e), st2) => (.error (.audioError e), st2)
    | (some _, st2) => (.error (.audioError "Unexpected response"), st2)
    | (none, st2) => (.error (.receiveError "channel closed"), st2)

/-- `cancel_recording` from `recorder.rs`: fails locally with
`NoActiveRecording` when `CURRENT_RECORDING` is empty; otherwise sends
`CancelRecording(filename)` and on success clears `CURRENT_RECORDING`. -/
def cancel_recording (host : Host) (st : ControllerState) :
    Except RecorderError Unit × ControllerState :=
  match st.current_recording with
  | none => (.error .noActiveRecording, st)
  | some filename =>
    let st1 := sendCommand host st (.cancelRecording filename)
    match recvResponse st1 with
    | (some (.success _), st2) => (.ok (), { st2 with current_recording := none })
    | (some (.error e), st2) => (.error (.audioError e), st2)
    | (some _, st2) => (.error (.audioError "Unexpected response"), st2)
    | (none, st2) => (.error (.receiveError "channel closed"), st2)

/-- The schedulable events of the whole system: one controller operation run
to completion, or one invocation of the audio callback with a sample buffer
(possible only while a session's stream is playing). -/
inductive SystemEvent
  | enumerate
  | init (settings : UserRecordingSessionConfig)
  | start (recording_id : String)
  | stop
  | cancel
  | close
  | callbackData (data : List ℚ)

/-- Apply one system event. A callback hitting `unreachable!` (modelled by
`audioCallback` returning `none`) leaves the state unchanged here; its
impossibility for states built by the worker is proved separately. -/
def applyEvent (host : Host) (st : ControllerState) : SystemEvent → ControllerState
  | .enumerate => (enumerate_recording_devices host st).2
  | .init settings => (init_recording_session host settings st).2
  | .start recording_id => (start_recording host recording_id st).2
  | .stop => (stop_recording host st).2
  | .cancel => (cancel_recording host st).2
  | .close => (close_recording_session host st).2
  | .callbackData data =>
    match st.worker.current_recording_session with
    | none => st
    | some session =>
      match audioCallback session.spec st.worker.writer data with
      | none => st
      | some slot => { st with worker := { st.worker with writer := slot } }

/-- The state right after `spawn_audio_thread`: no session, empty shared
slot, no tracked recording, empty channel, empty filesystem. -/
def initialState : ControllerState :=
  { worker := { current_recording_session := none, writer := none, fs := [] },
    current_recording := none,
    pending := [] }

/-- Run a list of system events. -/
def runEvents (host : Host) (st : ControllerState) : List SystemEvent → ControllerState
  | [] => st
  | e :: es => runEvents host (applyEvent host st e) es

/-- A state is reachable when some event sequence produces it from the
initial state. -/
def Reachable (host : Host) (st : ControllerState) : Prop :=
  ∃ events, st = runEvents host initialState events

/-- Whether the host's device enumeration succeeds (the response-channel
protocol stays in sync only on such hosts; see the enumeration double-send). -/
def hostOk (host : Host) : Bool :=
  match host.input_devices with
  | .ok _ => true
  | .error _ => false

/-- A concrete well-behaved environment: one device named `mic` whose
config, stream construction and playback all succeed. -/
def demoDevice : Device :=
  { name := .ok "mic",
    default_input_config := .ok { channels := 1, sample_rate := 48000 },
    build_input_stream_ok := .ok (),
    play_ok := .ok () }

/-- A host exposing just `demoDevice`, with no unopenable paths. -/
def demoHost : Host :=
  { input_devices := .ok [demoDevice], wav_create_fails := [] }

/-- A host whose device enumeration fails. -/
def errHost : Host :=
  { input_devices := .error "device enumeration failed", wav_create_fails := [] }

/-- A host with no input devices at all. -/
def noDeviceHost : Host :=
  { input_devices := .ok [], wav_create_fails := [] }

/-- A 32-bit (floating-point) session request against `demoDevice`. -/
def demoSettings : UserRecordingSessionConfig :=
  { device_name := "mic", bits_per_sample := 32 }

/-- The spec the worker derives for `demoSettings` on `demoDevice`. -/
def demoSpec : WavSpec :=
  { channels := 1, sample_rate := 48000, bits_per_sample := 32,
    sample_format := .float }

/-- Initialize a session, start recording `a.wav`, deliver one sample. -/
def demoEvents : List SystemEvent :=
  [.init demoSettings, .start "a", .callbackData [(1 : ℚ) / 2]]

/-- The reachable state with an active recording of `a.wav` holding one
written sample. -/
def demoActive : ControllerState :=
  runEvents demoHost initialState demoEvents

/-- The writer sitting in the shared slot in `demoActive`. -/
def demoFirstWriter : WavWriter :=
  { path := "a.wav", spec := demoSpec, samples := [.f32 ((1 : ℚ) / 2)] }

/-!
Fine-grained concurrency model for the shared writer slot.

The data callback and the control thread synchronize only through the
`Arc<Mutex<Option<WavWriter>>>`. The callback's critical section is one whole
buffer: it acquires the lock once per delivered buffer and writes every sample
of the buffer before releasing (`thread.rs` lines 144-170). The
`StopRecording`/`CancelRecording` arms acquire the lock once and `take` the
writer out (lines 235-264). Below, a schedule is any interleaving of the two
threads' event sequences, and validity (`runLock`) encodes exactly the mutex
discipline: an acquire needs the lock free, and only the holder's events may
occur inside a held section.
-/

/-- Lock-level events: the callback thread acquires, writes one sample, or
releases; the control thread acquires, takes the writer out, or releases. -/
inductive LockEvent
  | cbAcq
  | cbWrite (sample : ℚ)
  | cbRel
  | ctAcq
  | ctTake
  | ctRel
deriving DecidableEq

/-- Whether an event belongs to the callback thread. -/
def isCbEvent : LockEvent → Bool
  | .cbAcq => true
  | .cbWrite _ => true
  | .cbRel => true
  | _ => false

/-- The callback's critical section for one buffer: acquire, write each
sample, release. -/
def cbBlock (buf : List ℚ) : List LockEvent :=
  .cbAcq :: buf.map .cbWrite ++ [.cbRel]

/-- The callback thread's whole event sequence for a list of delivered
buffers. -/
def callbackTrace (bufs : List (List ℚ)) : List LockEvent :=
  bufs.flatMap cbBlock

/-- The control thread's event sequence for one `StopRecording` or
`CancelRecording`: acquire, take the writer, release. -/
def controlTrace : List LockEvent :=
  [.ctAcq, .ctTake, .ctRel]

/-- Interleavings of two event sequences. -/
inductive Interleave : List LockEvent → List LockEvent → List LockEvent → Prop
  | nil : Interleave [] [] []
  | left {x : LockEvent} {xs ys zs : List LockEvent} :
      Interleave xs ys zs → Interleave (x :: xs) ys (x :: zs)
  | right {y : LockEvent} {xs ys zs : List LockEvent} :
      Interleave xs ys zs → Interleave xs (y :: ys) (y :: zs)

/-- Simulate the mutex: `some owner` when valid (`owner = none` means free,
`some false` held by the callback, `some true` held by control), `none` when
the schedule violates mutual exclusion or lock discipline. -/
def runLock : Option Bool → List LockEvent → Option (Option Bool)
  | o, [] => some o
  | none, .cbAcq :: rest => runLock (some false) rest
  | some false, .cbWrite _ :: rest => runLock (some false) rest
  | some false, .cbRel :: rest => runLock none rest
  | none, .ctAcq :: rest => runLock (some true) rest
  | some true, .ctTake :: rest => runLock (some true) rest
  | some true, .ctRel :: rest => runLock none rest
  | _, _ :: _ => none

/-- Execute a schedule against the slot: a write appends its sample to the
held writer only while the slot is occupied (`if let Some(writer)`), and the
control thread's take empties the slot. Returns the slot occupancy and every
sample the encoder received. -/
def runSched : Bool → List ℚ → List LockEvent → Bool × List ℚ
  | slot, acc, [] => (slot, acc)
  | slot, acc, .cbWrite s :: rest => runSched slot (if slot then acc ++ [s] else acc) rest
  | _, acc, .ctTake :: rest => runSched false acc rest
  | slot, acc, _ :: rest => runSched slot acc rest

/-- The session value created by `demoHost` processing `demoSettings`. -/
def demoSession : RecordingSession :=
  { settings := { device_name := "mic", bits_per_sample := 32 },
    stream := { device_name := "mic", spec := demoSpec },
    writer := none,
    spec := demoSpec }

/-- A worker whose shared slot holds a writer whose backing file is missing
from the filesystem (the file-deletion-failure scenario for cancel). -/
def cancelDemoState : WorkerState :=
  { current_recording_session := some demoSession,
    writer := some demoFirstWriter,
    fs := [] }

/-- The protocol invariant maintained by the controller on a well-behaved
host: the response channel is drained between operations, and whenever
`CURRENT_RECORDING` tracks a filename, the shared slot holds a writer bound to
exactly that filename and the file exists on disk. -/
def StateInv (st : ControllerState) : Prop :=
  st.pending = [] ∧
  ∀ f, st.current_recording = some f →
    ∃ w, st.worker.writer = some w ∧ w.path = f ∧ fsHas st.worker.fs f = true

/-- A 16-bit integer session spec. -/
def spec16 : WavSpec :=
  { channels := 1, sample_rate := 48000, bits_per_sample := 16,
    sample_format := .int }

/-- A session request with an unsupported bit depth. -/
def badBitsSettings : UserRecordingSessionConfig :=
  { device_name := "mic", bits_per_sample := 20 }

/-- Two sample buffers delivered to the callback. -/
def c9Bufs : List (List ℚ) := [[1, 2], [3]]

/-- A schedule where the control thread's take runs between the two buffers'
critical sections. -/
def c9Sched : List LockEvent :=
  [.cbAcq, .cbWrite 1, .cbWrite 2, .cbRel, .ctAcq, .ctTake, .ctRel,
   .cbAcq, .cbWrite 3, .cbRel]

theorem fsGet_fsSet_self (fs : FS) (p : String) (d : FileData) :
    fsGet (fsSet fs p d) p = some d := by
  simp [fsGet, fsSet, List.find?]

theorem fsGet_filter_ne (fs : FS) (p q : String) (h : q ≠ p) :
    fsGet (fs.filter (fun e => e.1 != p)) q = fsGet fs q := by
  induction fs with
  | nil => rfl
  | cons a fs ih =>
    by_cases hap : a.1 = p <;> by_cases haq : a.1 = q
    · exact absurd (haq.symm.trans hap) h
    · have hpq : (p == q) = false := beq_eq_false_iff_ne.mpr fun hc => h hc.symm
      simp only [fsGet, List.filter_cons, List.find?_cons] at ih ⊢
      simp only [hap, bne_self_eq_false, Bool.false_eq_true, if_false, hpq]
      simpa [hpq] using ih
    · have hap2 : (a.1 != p) = true := bne_iff_ne.mpr hap
      have haq2 : (a.1 == q) = true := beq_iff_eq.mpr haq
      simp only [fsGet, List.filter_cons, List.find?_cons, hap2, if_true, haq2]
    · have hap2 : (a.1 != p) = true := bne_iff_ne.mpr hap
      have haq2 : (a.1 == q) = false := beq_eq_false_iff_ne.mpr haq
      simp only [fsGet, List.filter_cons, List.find?_cons, hap2, if_true, haq2] at ih ⊢
      exact ih

theorem fsGet_fsSet_ne (fs : FS) (p q : String) (d : FileData) (h : q ≠ p) :
    fsGet (fsSet fs p d) q = fsGet fs q := by
  have hpq : (p == q) = false := by
    simp
    exact fun hc => h hc.symm
  simp only [fsSet, fsGet, List.find?, hpq]
  exact fsGet_filter_ne fs p q h

theorem fsGet_fsRemove_self (fs : FS) (p : String) :
    fsGet (fsRemove fs p) p = none := by
  induction fs with
  | nil => rfl
  | cons a fs ih =>
    by_cases hap : a.1 = p
    · simp only [fsRemove] at ih ⊢
      simp [List.filter_cons, hap, ih]
    · have hap2 : (a.1 == p) = false := beq_eq_false_iff_ne.mpr hap
      simp only [fsRemove] at ih ⊢
      simp [List.filter_cons, fsGet, List.find?_cons, hap, hap2, ih]

theorem fsHas_fsUpdate (fs : FS) (p q : String) (d : FileData) :
    fsHas (fsUpdate fs p d) q = fsHas fs q := by
  unfold fsUpdate
  split
  · by_cases hqp : q = p
    · subst hqp
      simp_all [fsHas, fsGet_fsSet_self]
    · simp [fsHas, fsGet_fsSet_ne fs p q d hqp]
  · rfl

theorem fsGet_fsUpdate_self (fs : FS) (p : String) (d : FileData)
    (h : fsHas fs p = true) :
    fsGet (fsUpdate fs p d) p = some d := by
  simp [fsUpdate, h, fsGet_fsSet_self]

theorem fsUpdate_of_not_has (fs : FS) (p : String) (d : FileData)
    (h : fsHas fs p = false) :
    fsUpdate fs p d = fs := by
  simp [fsUpdate, h]

theorem fsHas_dropWriter (w : WavWriter) (fs : FS) (q : String) :
    fsHas (dropWriter w fs) q = fsHas fs q := by
  simp [dropWriter, fsHas_fsUpdate]

theorem fsHas_dropSlot (slot : Option WavWriter) (fs : FS) (q : String) :
    fsHas (dropSlot slot fs) q = fsHas fs q := by
  cases slot with
  | none => rfl
  | some w => simp [dropSlot, fsHas_dropWriter]

theorem processCommand_init_frame (host : Host) (st : WorkerState)
    (cfg : UserRecordingSessionConfig) :
    ((processCommand host st (.initRecordingSession cfg)).1.writer = st.writer) ∧
    ((processCommand host st (.initRecordingSession cfg)).1.fs = st.fs) ∧
    (∃ r, (processCommand host st (.initRecordingSession cfg)).2.1 = [r]) := by
  simp only [processCommand]
  split
  · exact ⟨rfl, rfl, _, rfl⟩
  · cases host.input_devices with
    | error e => exact ⟨rfl, rfl, _, rfl⟩
    | ok devices =>
      dsimp only
      cases findDevice devices cfg.device_name with
      | none => exact ⟨rfl, rfl, _, rfl⟩
      | some device =>
        dsimp only
        cases device.default_input_config with
        | error e => exact ⟨rfl, rfl, _, rfl⟩
        | ok config =>
          dsimp only
          cases sampleFormatFor cfg.bits_per_sample with
          | none => exact ⟨rfl, rfl, _, rfl⟩
          | some fmt =>
            dsimp only
            cases device.build_input_stream_ok with
            | error e => exact ⟨rfl, rfl, _, rfl⟩
            | ok u =>
              dsimp only
              cases device.play_ok with
              | error e => exact ⟨rfl, rfl, _, rfl⟩
              | ok u2 => exact ⟨rfl, rfl, _, rfl⟩

theorem stateInv_initial : StateInv initialState := by
  refine ⟨rfl, ?_⟩
  intro f hf
  simp [initialState] at hf

theorem stateInv_enumerate (host : Host) (st : ControllerState)
    (hh : hostOk host = true) (hinv : StateInv st) :
    StateInv (enumerate_recording_devices host st).2 := by
  obtain ⟨hp, htrack⟩ := hinv
  cases hd : host.input_devices with
  | error e => simp [hostOk, hd] at hh
  | ok devices =>
    simp only [enumerate_recording_devices, sendCommand, processCommand, hd, hp,
      List.nil_append, recvResponse]
    exact ⟨rfl, htrack⟩

theorem stateInv_init (host : Host) (settings : UserRecordingSessionConfig)
    (st : ControllerState) (hinv : StateInv st) :
    StateInv (init_recording_session host settings st).2 := by
  obtain ⟨hp, htrack⟩ := hinv
  obtain ⟨hwr, hfs, r, hr⟩ := processCommand_init_frame host st.worker settings
  simp only [init_recording_session, sendCommand, hp, hr, List.nil_append, recvResponse]
  have hgoal :
      StateInv { st with
        worker := (processCommand host st.worker (.initRecordingSession settings)).1,
        pending := [] } := by
    refine ⟨rfl, ?_⟩
    intro f hf
    obtain ⟨w, hw, hpath, hhas⟩ := htrack f hf
    exact ⟨w, hwr.trans hw, hpath, hfs ▸ hhas⟩
  cases r with
  | recordingDeviceList devices => exact hgoal
  | error e => exact hgoal
  | success m => exact hgoal

theorem stateInv_start (host : Host) (recording_id : String) (st : ControllerState)
    (hinv : StateInv st) : StateInv (start_recording host recording_id st).2 := by
  obtain ⟨hp, htrack⟩ := hinv
  cases hs : st.worker.current_recording_session with
  | none =>
    simp only [start_recording, sendCommand, processCommand, hs, hp,
      List.nil_append, recvResponse]
    exact ⟨rfl, htrack⟩
  | some session =>
    by_cases hbad : (recording_id ++ ".wav") ∈ host.wav_create_fails
    · simp only [start_recording, sendCommand, processCommand, hs, hbad, if_true, hp,
        List.nil_append, recvResponse]
      exact ⟨rfl, htrack⟩
    · simp only [start_recording, sendCommand, processCommand, hs, hbad, if_false, hp,
        List.nil_append, recvResponse]
      refine ⟨rfl, ?_⟩
      intro f hf
      simp only [Option.some_inj] at hf
      refine ⟨{ path := recording_id ++ ".wav", spec := session.spec, samples := [] },
        rfl, hf, ?_⟩
      subst hf
      rw [fsHas_dropSlot]
      simp [fsHas, fsGet_fsSet_self]

theorem stateInv_stop (host : Host) (st : ControllerState) (hinv : StateInv st) :
    StateInv (stop_recording host st).2 := by
  obtain ⟨hp, htrack⟩ := hinv
  cases ht : st.current_recording with
  | none =>
    simp only [stop_recording, ht]
    exact ⟨hp, htrack⟩
  | some f =>
    obtain ⟨w, hw, hpath, hhas⟩ := htrack f ht
    have hget : fsGet (dropWriter w st.worker.fs) f = some (.finalized w.spec w.samples) := by
      unfold dropWriter
      rw [hpath]
      exact fsGet_fsUpdate_self _ _ _ hhas
    simp only [stop_recording, ht, sendCommand, processCommand, hw, hp,
      List.nil_append, recvResponse, hget]
    refine ⟨rfl, ?_⟩
    intro f' hf'
    simp at hf'

theorem stateInv_cancel (host : Host) (st : ControllerState) (hinv : StateInv st) :
    StateInv (cancel_recording host st).2 := by
  obtain ⟨hp, htrack⟩ := hinv
  cases ht : st.current_recording with
  | none =>
    simp only [cancel_recording, ht]
    exact ⟨hp, htrack⟩
  | some f =>
    obtain ⟨w, hw, hpath, hhas⟩ := htrack f ht
    have h1 : fsHas (dropWriter w st.worker.fs) f = true := by
      rw [fsHas_dropWriter]
      exact hhas
    simp only [cancel_recording, ht, sendCommand, processCommand, hw, h1, if_true, hp,
      List.nil_append, recvResponse]
    refine ⟨rfl, ?_⟩
    intro f' hf'
    simp at hf'

theorem stateInv_close (host : Host) (st : ControllerState) (hinv : StateInv st) :
    StateInv (close_recording_session host st).2 := by
  obtain ⟨hp, htrack⟩ := hinv
  cases hs : st.worker.current_recording_session with
  | some session =>
    simp only [close_recording_session, sendCommand, processCommand, hs, hp,
      List.nil_append, recvResponse]
    refine ⟨rfl, ?_⟩
    intro f' hf'
    simp at hf'
  | none =>
    simp only [close_recording_session, sendCommand, processCommand, hs, hp,
      List.nil_append, recvResponse]
    exact ⟨rfl, htrack⟩

theorem stateInv_callback (host : Host) (data : List ℚ) (st : ControllerState)
    (hinv : StateInv st) : StateInv (applyEvent host st (.callbackData data)) := by
  obtain ⟨hp, htrack⟩ := hinv
  cases hs : st.worker.current_recording_session with
  | none =>
    simp only [applyEvent, hs]
    exact ⟨hp, htrack⟩
  | some session =>
    cases hw : st.worker.writer with
    | none =>
      simp only [applyEvent, hs, hw, audioCallback]
      refine ⟨hp, ?_⟩
      intro f hf
      obtain ⟨w, hw2, _, _⟩ := htrack f hf
      rw [hw] at hw2
      cases hw2
    | some w =>
      cases hws : writeAllSamples session.spec data with
      | none =>
        simp only [applyEvent, hs, hw, audioCallback, hws, Option.map_none]
        exact ⟨hp, htrack⟩
      | some ws =>
        simp only [applyEvent, hs, hw, audioCallback, hws, Option.map_some]
        refine ⟨hp, ?_⟩
        intro f hf
        obtain ⟨w', hw2, hpath, hhas⟩ := htrack f hf
        rw [hw] at hw2
        cases hw2
        exact ⟨{ w with samples := w.samples ++ ws }, rfl, hpath, hhas⟩

theorem runEvents_inv (host : Host) (hh : hostOk host = true) :
    ∀ (events : List SystemEvent) (st : ControllerState),
      StateInv st → StateInv (runEvents host st events) := by
  intro events
  induction events with
  | nil => intro st h; exact h
  | cons e es ih =>
    intro st h
    apply ih
    cases e with
    | enumerate => exact stateInv_enumerate host st hh h
    | init settings => exact stateInv_init host settings st h
    | start recording_id => exact stateInv_start host recording_id st h
    | stop => exact stateInv_stop host st h
    | cancel => exact stateInv_cancel host st h
    | close => exact stateInv_close host st h
    | callbackData data => exact stateInv_callback host data st h

theorem reachable_inv (host : Host) (st : ControllerState)
    (hh : hostOk host = true) (hr : Reachable host st) : StateInv st := by
  obtain ⟨events, rfl⟩ := hr
  exact runEvents_inv host hh events initialState stateInv_initial

theorem writeAllSamples_isSome (spec : WavSpec)
    (h : ∀ s, convertSample spec s ≠ none) :
    ∀ data, writeAllSamples spec data ≠ none := by
  intro data
  induction data with
  | nil => simp [writeAllSamples]
  | cons s rest ih =>
    unfold writeAllSamples
    cases hc : convertSample spec s with
    | none => exact absurd hc (h s)
    | some w =>
      cases hw : writeAllSamples spec rest with
      | none => exact absurd hw ih
      | some ws => simp

theorem interleave_nil_middle {xs ms zs : List LockEvent} (h : Interleave xs ms zs) :
    ms = [] → zs = xs := by
  induction h with
  | nil => intro _; rfl
  | left h ih => intro hm; rw [ih hm]
  | right h ih => intro hm; cases hm

theorem interleave_cons_right {xs ms zs : List LockEvent} (h : Interleave xs ms zs) :
    ∀ y ys, ms = y :: ys →
      ∃ x1 x2 z2, xs = x1 ++ x2 ∧ zs = x1 ++ y :: z2 ∧ Interleave x2 ys z2 := by
  induction h with
  | nil => intro y ys hm; cases hm
  | @left x xs ys zs h ih =>
    intro y ys2 hm
    obtain ⟨x1, x2, z2, hx, hz, hi⟩ := ih y ys2 hm
    exact ⟨x :: x1, x2, z2, by rw [hx]; rfl, by rw [hz]; rfl, hi⟩
  | @right y xs ys zs h ih =>
    intro y2 ys2 hm
    cases hm
    exact ⟨[], xs, zs, rfl, rfl, h⟩

theorem runLock_append (xs ys : List LockEvent) :
    ∀ o, runLock o (xs ++ ys) = (runLock o xs).bind (fun oo => runLock oo ys) := by
  induction xs with
  | nil => intro o; simp [runLock]
  | cons e xs ih =>
    intro o
    cases o with
    | none => cases e <;> simp [runLock, ih]
    | some b => cases b <;> cases e <;> simp [runLock, ih]

theorem runLock_ct_blocked (e : LockEvent) (he : isCbEvent e = true)
    (rest : List LockEvent) : runLock (some true) (e :: rest) = none := by
  cases e <;> simp_all [isCbEvent, runLock]

theorem callbackTrace_mem_isCb (bufs : List (List ℚ)) (e : LockEvent)
    (he : e ∈ callbackTrace bufs) : isCbEvent e = true := by
  induction bufs with
  | nil => simp [callbackTrace] at he
  | cons b bs ih =>
    have hsplit : callbackTrace (b :: bs) = cbBlock b ++ callbackTrace bs := by
      simp [callbackTrace]
    rw [hsplit] at he
    rcases List.mem_append.mp he with h1 | h2
    · simp only [cbBlock] at h1
      rcases List.mem_cons.mp h1 with h | h
      · subst h; rfl
      · rcases List.mem_append.mp h with h3 | h3
        · obtain ⟨s, _, hs⟩ := List.mem_map.mp h3
          rw [← hs]; rfl
        · rcases List.mem_singleton.mp h3 with rfl; rfl
    · exact ih h2

theorem cbBlock_split (rest : List LockEvent) (b : List ℚ) :
    ∀ (a c : List LockEvent),
      a ++ c = b.map LockEvent.cbWrite ++ LockEvent.cbRel :: rest →
      runLock (some false) a = some none →
      ∃ a2, a = b.map LockEvent.cbWrite ++ LockEvent.cbRel :: a2 ∧ a2 ++ c = rest ∧
        runLock none a2 = some none := by
  induction b with
  | nil =>
    intro a c heq hl
    cases a with
    | nil => simp [runLock] at hl
    | cons e a2 =>
      simp only [List.map_nil, List.nil_append, List.cons_append, List.cons.injEq] at heq
      obtain ⟨rfl, htail⟩ := heq
      exact ⟨a2, rfl, htail, hl⟩
  | cons s b ih =>
    intro a c heq hl
    cases a with
    | nil => simp [runLock] at hl
    | cons e a' =>
      simp only [List.map_cons, List.cons_append, List.cons.injEq] at heq
      obtain ⟨rfl, htail⟩ := heq
      obtain ⟨a2, ha, hc, hl2⟩ := ih a' c htail hl
      exact ⟨a2, by rw [ha]; rfl, hc, hl2⟩

theorem callbackTrace_split (bufs : List (List ℚ)) :
    ∀ (a c : List LockEvent),
      a ++ c = callbackTrace bufs →
      runLock none a = some none →
      ∃ k, a = callbackTrace (bufs.take k) ∧ c = callbackTrace (bufs.drop k) := by
  induction bufs with
  | nil =>
    intro a c heq hl
    rcases List.append_eq_nil.mp heq with ⟨rfl, rfl⟩
    exact ⟨0, rfl, rfl⟩
  | cons b bs ih =>
    intro a c heq hl
    cases a with
    | nil => exact ⟨0, rfl, heq⟩
    | cons e a' =>
      have heq2 : e :: (a' ++ c) =
          LockEvent.cbAcq :: (b.map LockEvent.cbWrite ++
            LockEvent.cbRel :: callbackTrace bs) := by
        rw [← List.cons_append, heq]
        simp [callbackTrace, cbBlock]
      simp only [List.cons.injEq] at heq2
      obtain ⟨rfl, htail⟩ := heq2
      have hl' : runLock (some false) a' = some none := hl
      obtain ⟨a2, ha2, hc2, hl2⟩ := cbBlock_split (callbackTrace bs) b a' c htail hl'
      obtain ⟨k, hk1, hk2⟩ := ih a2 c hc2 hl2
      refine ⟨k + 1, ?_, ?_⟩
      · rw [ha2, hk1]
        simp [callbackTrace, cbBlock]
      · exact hk2

theorem runSched_writes (b : List ℚ) :
    ∀ (acc : List ℚ) (l : List LockEvent),
      runSched true acc (b.map LockEvent.cbWrite ++ l) = runSched true (acc ++ b) l := by
  induction b with
  | nil => intro acc l; simp
  | cons s b ih =>
    intro acc l
    simp only [List.map_cons, List.cons_append]
    rw [show runSched true acc (LockEvent.cbWrite s :: (b.map LockEvent.cbWrite ++ l)) =
      runSched true (acc ++ [s]) (b.map LockEvent.cbWrite ++ l) from by simp [runSched]]
    rw [ih (acc ++ [s]) l]
    simp

theorem runSched_cbTrace_true (bufs : List (List ℚ)) :
    ∀ acc, runSched true acc (callbackTrace bufs) = (true, acc ++ bufs.flatten) := by
  induction bufs with
  | nil => intro acc; simp [callbackTrace, runSched]
  | cons b bs ih =>
    intro acc
    have h1 : callbackTrace (b :: bs) =
        LockEvent.cbAcq :: (b.map LockEvent.cbWrite ++
          LockEvent.cbRel :: callbackTrace bs) := by
      simp [callbackTrace, cbBlock]
    rw [h1]
    rw [show runSched true acc (LockEvent.cbAcq :: (b.map LockEvent.cbWrite ++
      LockEvent.cbRel :: callbackTrace bs)) = runSched true acc (b.map LockEvent.cbWrite ++
      LockEvent.cbRel :: callbackTrace bs) from rfl]
    rw [runSched_writes]
    rw [show runSched true (acc ++ b) (LockEvent.cbRel :: callbackTrace bs) =
      runSched true (acc ++ b) (callbackTrace bs) from rfl]
    rw [ih (acc ++ b)]
    simp

theorem runSched_cb_false (l : List LockEvent)
    (hcb : ∀ e ∈ l, isCbEvent e = true) :
    ∀ acc, runSched false acc l = (false, acc) := by
  induction l with
  | nil => intro acc; rfl
  | cons e l ih =>
    intro acc
    have he := hcb e (List.mem_cons_self e l)
    have ihl := ih fun x hx => hcb x (List.mem_cons_of_mem e hx)
    cases e <;> simp_all [isCbEvent, runSched]

theorem runSched_append (xs ys : List LockEvent) :
    ∀ slot acc, runSched slot acc (xs ++ ys) =
      runSched (runSched slot acc xs).1 (runSched slot acc xs).2 ys := by
  induction xs with
  | nil => intro slot acc; simp [runSched]
  | cons e xs ih =>
    intro slot acc
    cases e <;> simp [runSched, ih]

theorem sampleFormatFor_cases {bits : Nat} {fmt : SampleFormat}
    (h : sampleFormatFor bits = some fmt) :
    (fmt = .int ∧ (bits = 16 ∨ bits = 24)) ∨ (fmt = .float ∧ bits = 32) := by
  unfold sampleFormatFor at h
  split_ifs at h with h16 h24 h32
  · cases h; exact Or.inl ⟨rfl, Or.inl h16⟩
  · cases h; exact Or.inl ⟨rfl, Or.inr h24⟩
  · cases h; exact Or.inr ⟨rfl, h32⟩

theorem convertSample_total {spec : WavSpec}
    (hspec : (spec.sample_format = .int ∧
        (spec.bits_per_sample = 16 ∨ spec.bits_per_sample = 24)) ∨
      (spec.sample_format = .float ∧ spec.bits_per_sample = 32)) :
    ∀ s, convertSample spec s ≠ none := by
  intro s
  unfold convertSample
  rcases hspec with ⟨hf, h16 | h24⟩ | ⟨hf, h32⟩
  · simp [hf, h16]
  · simp [hf, h24]
  · simp [hf]

theorem audioCallback_total {spec : WavSpec}
    (h : ∀ s, convertSample spec s ≠ none) :
    ∀ slot data, audioCallback spec slot data ≠ none := by
  intro slot data
  cases slot with
  | none => simp [audioCallback]
  | some w =>
    unfold audioCallback
    cases hws : writeAllSamples spec data with
    | none => exact absurd hws (writeAllSamples_isSome spec h data)
    | some ws => simp

/-- C9: for every interleaving of the audio callback's buffer writes with a
concurrent StopRecording/CancelRecording slot take that respects the shared
slot's mutual exclusion, the samples received by the encoder are the
concatenation of a prefix of whole buffers: either all samples of an in-flight
buffer are written before the encoder is removed, or none after — never a
torn, partially-consumed buffer. -/
theorem C9_no_torn_write (bufs : List (List ℚ)) (sched : List LockEvent)
    (hint : Interleave (callbackTrace bufs) controlTrace sched)
    (hlock : (runLock none sched).isSome = true) :
    ∃ k, (runSched true [] sched).2 = (bufs.take k).flatten := by
  obtain ⟨a1, x2, z1, hx, hz, hi1⟩ :=
    interleave_cons_right hint .ctAcq [.ctTake, .ctRel] rfl
  obtain ⟨b1, x3, z2, hx2, hz2, hi2⟩ :=
    interleave_cons_right hi1 .ctTake [.ctRel] rfl
  obtain ⟨c1, x4, z3, hx3, hz3, hi3⟩ :=
    interleave_cons_right hi2 .ctRel [] rfl
  have hz4 : z3 = x4 := interleave_nil_middle hi3 rfl
  rw [hz4] at hz3
  subst hz3 hz2 hz
  rw [runLock_append] at hlock
  cases ho1 : runLock none a1 with
  | none => rw [ho1] at hlock; simp at hlock
  | some o1 =>
    rw [ho1] at hlock
    simp only [Option.some_bind] at hlock
    cases o1 with
    | some b => cases b <;> simp [runLock] at hlock
    | none =>
      have hlock2 :
          (runLock (some true) (b1 ++ .ctTake :: (c1 ++ .ctRel :: x4))).isSome = true :=
        hlock
      cases b1 with
      | cons e t =>
        have he : isCbEvent e = true := by
          apply callbackTrace_mem_isCb bufs
          rw [hx, hx2]
          exact List.mem_append_right _
            (List.mem_append_left _ (List.mem_cons_self e t))
        rw [show (e :: t) ++ LockEvent.ctTake :: (c1 ++ LockEvent.ctRel :: x4) =
          e :: (t ++ LockEvent.ctTake :: (c1 ++ LockEvent.ctRel :: x4)) from rfl,
          runLock_ct_blocked e he] at hlock2
        simp at hlock2
      | nil =>
        have hlock3 : (runLock (some true) (c1 ++ .ctRel :: x4)).isSome = true := hlock2
        cases c1 with
        | cons e t =>
          have he : isCbEvent e = true := by
            apply callbackTrace_mem_isCb bufs
            rw [hx, hx2, hx3]
            exact List.mem_append_right _ (List.mem_append_right _
              (List.mem_append_left _ (List.mem_cons_self e t)))
          rw [show (e :: t) ++ LockEvent.ctRel :: x4 =
            e :: (t ++ LockEvent.ctRel :: x4) from rfl,
            runLock_ct_blocked e he] at hlock3
          simp at hlock3
        | nil =>
          simp only [List.nil_append] at hx2 hx3 hlock2
          subst hx3 hx2
          obtain ⟨k, hk1, hk2⟩ := callbackTrace_split bufs a1 x2 hx.symm ho1
          refine ⟨k, ?_⟩
          rw [runSched_append, hk1, runSched_cbTrace_true]
          have hstep :
              runSched true ([] ++ (bufs.take k).flatten)
                (LockEvent.ctAcq :: ([] ++ LockEvent.ctTake ::
                  ([] ++ LockEvent.ctRel :: x2))) =
              runSched false ((bufs.take k).flatten) x2 := by
            simp [runSched]
          rw [hstep, hk2, runSched_cb_false]
          intro e hme
          exact callbackTrace_mem_isCb _ e hme

/-- C9 witness: a concrete schedule of two buffers with the stop's take
between their critical sections yields exactly the first buffer. -/
theorem C9_witness :
    ∃ k, (runSched true [] c9Sched).2 = (c9Bufs.take k).flatten :=
  C9_no_torn_write c9Bufs c9Sched
    (by
      show Interleave (callbackTrace c9Bufs) controlTrace c9Sched
      simp only [c9Bufs, c9Sched, callbackTrace, cbBlock, controlTrace,
        List.flatMap_cons, List.map_cons, List.map_nil, List.flatMap_nil,
        List.cons_append, List.nil_append, List.append_nil]
      repeat first
        | exact Interleave.nil
        | apply Interleave.left
        | apply Interleave.right)
    (by rfl)

/-- C1: the claim says a second StartRecording while a Recording is active
must fail and leave the first encoder in place; the code instead creates a
fresh writer, overwrites the shared slot with it, and answers Success —
evaluated here on the reachable state recording `a.wav`. -/
theorem C1_second_start_replaces :
    demoActive.worker.writer = some demoFirstWriter ∧
    demoFirstWriter.path = "a.wav" ∧
    (processCommand demoHost demoActive.worker (.startRecording "b.wav")).1.writer =
      some { path := "b.wav", spec := demoSpec, samples := [] } ∧
    (processCommand demoHost demoActive.worker (.startRecording "b.wav")).2.1 =
      [.success "Recording started"] := by
  exact ⟨rfl, rfl, rfl, rfl⟩

/-- C2: the claim says every command emits exactly one response; the
EnumerateRecordingDevices arm, when device enumeration fails, sends an Error
inside `unwrap_or_else` and then also sends the (empty) device list — two
responses for one command. -/
theorem C2_enumerate_double_response :
    (processCommand errHost initialState.worker .enumerateRecordingDevices).2.1 =
      [.error "device enumeration failed", .recordingDeviceList []] ∧
    (processCommand errHost initialState.worker .enumerateRecordingDevices).2.1.length ≠ 1 := by
  exact ⟨rfl, by decide⟩

/-- C3 counterexample: with bitsPerSample = 20 and a device name that does not
exist, the failure observed is the worker's device-lookup error, not a local
UnsupportedBitDepth — so the bit-depth check neither runs in the controller
nor precedes device interaction. -/
theorem C3_not_local :
    (init_recording_session noDeviceHost
      { device_name := "missing", bits_per_sample := 20 } initialState).1 =
      .error (.audioError "Device not found") := by
  decide

/-- C3 (amended): an unsupported bitsPerSample is rejected by the worker,
after the command was sent, the device resolved and its default config
queried, with error "Unsupported bits per sample: n"; no stream is built and
no session is created (the controller state is returned unchanged). -/
theorem C3_worker_rejects_bits (host : Host) (st : ControllerState)
    (cfg : UserRecordingSessionConfig) (devices : List Device) (device : Device)
    (config : DeviceConfig)
    (h16 : cfg.bits_per_sample ≠ 16) (h24 : cfg.bits_per_sample ≠ 24)
    (h32 : cfg.bits_per_sample ≠ 32)
    (hsess : st.worker.current_recording_session = none)
    (hpend : st.pending = [])
    (hdevs : host.input_devices = .ok devices)
    (hfind : findDevice devices cfg.device_name = some device)
    (hcfg : device.default_input_config = .ok config) :
    init_recording_session host cfg st =
      (.error (.audioError ("Unsupported bits per sample: " ++
        toString cfg.bits_per_sample)), st) := by
  obtain ⟨worker, cur, pending⟩ := st
  simp only at hsess hpend
  subst hpend
  have hsf : sampleFormatFor cfg.bits_per_sample = none := by
    simp [sampleFormatFor, h16, h24, h32]
  have hnot : worker.current_recording_session.isSome = false := by
    simp [hsess]
  simp [init_recording_session, sendCommand, processCommand, hnot, hdevs,
    hfind, hcfg, hsf, recvResponse]

/-- C3 witness: bitsPerSample = 20 against the demo device is rejected by the
worker with the unsupported-bits error, leaving the state unchanged. -/
theorem C3_witness :
    init_recording_session demoHost badBitsSettings initialState =
      (.error (.audioError ("Unsupported bits per sample: " ++
        toString badBitsSettings.bits_per_sample)), initialState) :=
  C3_worker_rejects_bits demoHost initialState badBitsSettings [demoDevice]
    demoDevice { channels := 1, sample_rate := 48000 }
    (by decide) (by decide) (by decide) rfl rfl rfl (by decide) rfl

/-- C4: in every reachable state (on a host whose device enumeration works)
where the shared writer slot is empty, both stopRecording and cancelRecording
fail with NoActiveRecording and return the state entirely unchanged. -/
theorem C4_no_active_recording (host : Host) (st : ControllerState)
    (hh : hostOk host = true) (hr : Reachable host st)
    (hslot : st.worker.writer = none) :
    stop_recording host st = (.error .noActiveRecording, st) ∧
    cancel_recording host st = (.error .noActiveRecording, st) := by
  obtain ⟨hp, htrack⟩ := reachable_inv host st hh hr
  have ht : st.current_recording = none := by
    cases hcur : st.current_recording with
    | none => rfl
    | some f =>
      obtain ⟨w, hw, _, _⟩ := htrack f hcur
      rw [hslot] at hw
      cases hw
  constructor
  · simp [stop_recording, ht]
  · simp [cancel_recording, ht]

/-- C4 witness: in the initial state both operations fail with
NoActiveRecording and change nothing. -/
theorem C4_witness :
    stop_recording demoHost initialState = (.error .noActiveRecording, initialState) ∧
    cancel_recording demoHost initialState = (.error .noActiveRecording, initialState) :=
  C4_no_active_recording demoHost initialState rfl ⟨[], rfl⟩ rfl

/-- C5: the callback writes each sample through the format-appropriate
conversion — the identity for a floating-point format, `(sample * 32767) as
i16` for 16-bit and `(sample * 8388607) as i32` for 24-bit, per the encoder's
declared bit depth — and writes nothing at all when the slot is empty. -/
theorem C5_callback_conversion (spec : WavSpec) (s : ℚ) (w : WavWriter)
    (data : List ℚ) :
    (spec.sample_format = .float → convertSample spec s = some (.f32 s)) ∧
    (spec.sample_format = .int → spec.bits_per_sample = 16 →
      convertSample spec s = some (.i16 (f32_to_i16 s))) ∧
    (spec.sample_format = .int → spec.bits_per_sample = 24 →
      convertSample spec s = some (.i32 (f32_to_i24 s))) ∧
    audioCallback spec none data = some none ∧
    (∀ ws, writeAllSamples spec data = some ws →
      audioCallback spec (some w) data =
        some (some { w with samples := w.samples ++ ws })) := by
  refine ⟨?_, ?_, ?_, rfl, ?_⟩
  · intro hf; simp [convertSample, hf]
  · intro hf h16; simp [convertSample, hf, h16]
  · intro hf h24; simp [convertSample, hf, h24]
  · intro ws hws; simp [audioCallback, hws]

/-- C5 witness: the 16-bit conversion on a concrete sample, the empty-slot
no-op, and a full-buffer append on the demo float writer. -/
theorem C5_witness :
    convertSample spec16 ((1 : ℚ) / 2) = some (.i16 (f32_to_i16 ((1 : ℚ) / 2))) ∧
    audioCallback demoSpec none [(1 : ℚ)] = some none ∧
    audioCallback demoSpec (some demoFirstWriter) [(1 : ℚ)] =
      some (some { demoFirstWriter with
        samples := demoFirstWriter.samples ++ [.f32 1] }) := by
  refine ⟨?_, ?_, ?_⟩
  · exact (C5_callback_conversion spec16 ((1 : ℚ) / 2) demoFirstWriter []).2.1 rfl rfl
  · exact (C5_callback_conversion demoSpec 1 demoFirstWriter [(1 : ℚ)]).2.2.2.1
  · exact (C5_callback_conversion demoSpec 1 demoFirstWriter [(1 : ℚ)]).2.2.2.2
      [.f32 1] rfl

/-- C6: with a recording active, the worker-level StopRecording finalizes the
writer and leaves the file on disk, while the controller's stopRecording on
worker success reads that finalized file, removes the on-disk copy, clears
its tracking, and returns the encoded contents. -/
theorem C6_stop_reads_removes_returns (host : Host) (st : ControllerState)
    (f : String) (hh : hostOk host = true) (hr : Reachable host st)
    (htr : st.current_recording = some f) :
    ∃ w, st.worker.writer = some w ∧ w.path = f ∧
      ((processCommand host st.worker .stopRecording).2.1 =
        [.success "Recording stopped"]) ∧
      (fsGet (processCommand host st.worker .stopRecording).1.fs f =
        some (.finalized w.spec w.samples)) ∧
      ((stop_recording host st).1 = .ok (.finalized w.spec w.samples)) ∧
      ((stop_recording host st).2.current_recording = none) ∧
      (fsHas (stop_recording host st).2.worker.fs f = false) := by
  obtain ⟨hp, htrack⟩ := reachable_inv host st hh hr
  obtain ⟨w, hw, hpath, hhas⟩ := htrack f htr
  have hget : fsGet (dropWriter w st.worker.fs) f =
      some (.finalized w.spec w.samples) := by
    unfold dropWriter
    rw [hpath]
    exact fsGet_fsUpdate_self _ _ _ hhas
  refine ⟨w, hw, hpath, ?_, ?_, ?_, ?_, ?_⟩
  · simp [processCommand, hw]
  · simp [processCommand, hw, hget]
  · simp [stop_recording, htr, sendCommand, processCommand, hw, hp, recvResponse, hget]
  · simp [stop_recording, htr, sendCommand, processCommand, hw, hp, recvResponse, hget]
  · simp only [stop_recording, htr, sendCommand, processCommand, hw, hp,
      List.nil_append, recvResponse, hget]
    simp [fsHas, fsGet_fsRemove_self]

/-- C6 witness: stopping the demo recording of `a.wav` returns its finalized
one-sample contents and removes the file. -/
theorem C6_witness :
    ∃ w, demoActive.worker.writer = some w ∧ w.path = "a.wav" ∧
      ((processCommand demoHost demoActive.worker .stopRecording).2.1 =
        [.success "Recording stopped"]) ∧
      (fsGet (processCommand demoHost demoActive.worker .stopRecording).1.fs "a.wav" =
        some (.finalized w.spec w.samples)) ∧
      ((stop_recording demoHost demoActive).1 = .ok (.finalized w.spec w.samples)) ∧
      ((stop_recording demoHost demoActive).2.current_recording = none) ∧
      (fsHas (stop_recording demoHost demoActive).2.worker.fs "a.wav" = false) :=
  C6_stop_reads_removes_returns demoHost demoActive "a.wav" rfl
    ⟨demoEvents, rfl⟩ (by decide)

/-- C7: with a recording active, CancelRecording takes the writer out of the
slot (emptying it unconditionally) and deletes its backing file; if the file
is missing the deletion failure is reported as an Error response but the slot
is emptied and the session survives all the same. -/
theorem C7_cancel_takes_slot (host : Host) (st : WorkerState) (w : WavWriter)
    (hw : st.writer = some w) :
    ((processCommand host st (.cancelRecording w.path)).1.writer = none) ∧
    ((processCommand host st (.cancelRecording w.path)).1.current_recording_session =
      st.current_recording_session) ∧
    (fsHas st.fs w.path = true →
      processCommand host st (.cancelRecording w.path) =
        ({ st with writer := none, fs := fsRemove (dropWriter w st.fs) w.path },
         [.success "Recording cancelled and file deleted"], true)) ∧
    (fsHas st.fs w.path = false →
      processCommand host st (.cancelRecording w.path) =
        ({ st with writer := none },
         [.error ("Failed to delete partial recording: " ++ osNotFound)], true)) := by
  have hhh : fsHas (dropWriter w st.fs) w.path = fsHas st.fs w.path :=
    fsHas_dropWriter w st.fs w.path
  cases hpresent : fsHas st.fs w.path with
  | true =>
    have hcond : fsHas (dropWriter w st.fs) w.path = true := hhh.trans hpresent
    have heq : processCommand host st (.cancelRecording w.path) =
        ({ st with writer := none, fs := fsRemove (dropWriter w st.fs) w.path },
         [.success "Recording cancelled and file deleted"], true) := by
      simp only [processCommand, hw, hcond, if_true]
    refine ⟨by rw [heq], by rw [heq], fun _ => heq, fun habs => ?_⟩
    cases habs
  | false =>
    have hcond : fsHas (dropWriter w st.fs) w.path = false := hhh.trans hpresent
    have hfs : dropWriter w st.fs = st.fs :=
      fsUpdate_of_not_has st.fs w.path _ hpresent
    have heq : processCommand host st (.cancelRecording w.path) =
        ({ st with writer := none },
         [.error ("Failed to delete partial recording: " ++ osNotFound)], true) := by
      simp [processCommand, hw, hcond, hfs, hpresent]
    refine ⟨by rw [heq], by rw [heq], fun habs => ?_, fun _ => heq⟩
    cases habs

/-- C7 witness: cancelling when the backing file is already gone still empties
the slot and keeps the session, reporting the deletion failure. -/
theorem C7_witness :
    ((processCommand demoHost cancelDemoState
        (.cancelRecording demoFirstWriter.path)).1.writer = none) ∧
    processCommand demoHost cancelDemoState (.cancelRecording demoFirstWriter.path) =
      ({ cancelDemoState with writer := none },
       [.error ("Failed to delete partial recording: " ++ osNotFound)], true) := by
  have h := C7_cancel_takes_slot demoHost cancelDemoState demoFirstWriter rfl
  exact ⟨h.1, h.2.2.2 rfl⟩

/-- C8: CloseSession destroys the stream by dropping the session (worker back
to Idle) and answers Success, but leaves the shared writer slot — and hence
any in-progress recording's encoder — completely untouched. -/
theorem C8_close_keeps_slot (host : Host) (st : WorkerState)
    (session : RecordingSession)
    (hs : st.current_recording_session = some session) :
    processCommand host st .closeRecordingSession =
      ({ st with current_recording_session := none },
       [.success "Recording session closed successfully"], true) ∧
    (processCommand host st .closeRecordingSession).1.writer = st.writer := by
  have heq : processCommand host st .closeRecordingSession =
      ({ st with current_recording_session := none },
       [.success "Recording session closed successfully"], true) := by
    simp only [processCommand, hs]
  exact ⟨heq, by rw [heq]⟩

/-- C8 witness: closing the demo session mid-recording leaves the occupied
slot exactly as it was. -/
theorem C8_witness :
    processCommand demoHost demoActive.worker .closeRecordingSession =
      ({ demoActive.worker with current_recording_session := none },
       [.success "Recording session closed successfully"], true) ∧
    (processCommand demoHost demoActive.worker .closeRecordingSession).1.writer =
      demoActive.worker.writer :=
  C8_close_keeps_slot demoHost demoActive.worker demoSession rfl

/-- C10: whenever InitRecordingSession succeeds, the stored spec pairs Int
format exclusively with bit depths 16 or 24 (and Float with 32), so the
callback's integer conversion never reaches its `unreachable!` arm for any
sample or slot contents. -/
theorem C10_int_path_bits (host : Host) (st : WorkerState)
    (cfg : UserRecordingSessionConfig)
    (hok : (processCommand host st (.initRecordingSession cfg)).2.1 =
      [.success "Recording session initialized"]) :
    ∃ session,
      (processCommand host st (.initRecordingSession cfg)).1.current_recording_session =
        some session ∧
      ((session.spec.sample_format = .int ∧
          (session.spec.bits_per_sample = 16 ∨ session.spec.bits_per_sample = 24)) ∨
        (session.spec.sample_format = .float ∧ session.spec.bits_per_sample = 32)) ∧
      (∀ s, convertSample session.spec s ≠ none) ∧
      (∀ slot data, audioCallback session.spec slot data ≠ none) := by
  simp only [processCommand] at hok ⊢
  by_cases hsome : st.current_recording_session.isSome = true
  · rw [if_pos hsome] at hok
    simp at hok
  · rw [if_neg hsome] at hok ⊢
    revert hok
    cases host.input_devices with
    | error e => intro hok; simp at hok
    | ok devices =>
      dsimp only
      cases findDevice devices cfg.device_name with
      | none => intro hok; simp at hok
      | some device =>
        dsimp only
        cases device.default_input_config with
        | error e => intro hok; simp at hok
        | ok config =>
          dsimp only
          cases hsf : sampleFormatFor cfg.bits_per_sample with
          | none => intro hok; simp at hok
          | some fmt =>
            dsimp only
            cases device.build_input_stream_ok with
            | error e => intro hok; simp at hok
            | ok u =>
              dsimp only
              cases device.play_ok with
              | error e => intro hok; simp at hok
              | ok u2 =>
                intro _
                have hspec := sampleFormatFor_cases hsf
                refine ⟨_, rfl, hspec, convertSample_total hspec,
                  audioCallback_total (convertSample_total hspec)⟩

/-- C10 witness: the demo 32-bit init succeeds and its stored spec keeps the
callback total on every sample. -/
theorem C10_witness :
    ∃ session,
      (processCommand demoHost initialState.worker
        (.initRecordingSession demoSettings)).1.current_recording_session =
        some session ∧
      ((session.spec.sample_format = .int ∧
          (session.spec.bits_per_sample = 16 ∨ session.spec.bits_per_sample = 24)) ∨
        (session.spec.sample_format = .float ∧ session.spec.bits_per_sample = 32)) ∧
      (∀ s, convertSample session.spec s ≠ none) ∧
      (∀ slot data, audioCallback session.spec slot data ≠ none) :=
  C10_int_path_bits demoHost initialState.worker demoSettings (by decide)

end WhisperingRecorder
